import Mathlib

/-!
Verification of the `just-metrics` buffering metrics client
(`src/index.ts`): a Sentry metrics SDK with an in-memory buffer,
a size trigger (100 records), a time trigger (5000 ms), and a
three-segment envelope wire format.

Shallow embedding notes:
* JS numbers are modelled as rationals (`ℚ`); `Number.isInteger v`
  holds exactly when the rational has denominator 1.
* `Date.now()` is an oracle input `now : ℕ` (milliseconds).
* `crypto.getRandomValues` on a 16-byte array is an oracle input:
  a list of 16 natural numbers below 256.
* `fetch` is an oracle outcome `Except String Unit`; the `try/catch`
  around it is modelled explicitly.
* JS truthiness is modelled where the source tests it: an `Option String`
  field guarded by `if (options?.unit)` is truthy exactly when it is
  `some u` with `u ≠ ""`; a JS object (even `{}`) is always truthy.
-/

namespace JustMetrics

/-- `type MetricType = "counter" | "gauge" | "distribution"` (src/index.ts). -/
inductive MetricType where
  | counter
  | gauge
  | distribution
deriving DecidableEq, Repr

/-- `type AttributeValue = string | number | boolean` (src/index.ts). -/
inductive AttributeValue where
  | str (s : String)
  | num (q : ℚ)
  | bool (b : Bool)
deriving DecidableEq, Repr

/-- `interface MetricOptions { unit?: string; attributes?: Attributes }`.
Attributes are an ordered association list mirroring JS object insertion
order (which `Object.entries` and `JSON.stringify` preserve). -/
structure MetricOptions where
  unit : Option String := none
  attributes : Option (List (String × AttributeValue)) := none
deriving DecidableEq, Repr

/-- `interface FormattedAttribute { value; type }` where the type tag is one
of `"string" | "integer" | "double" | "boolean"` (src/index.ts). -/
structure FormattedAttribute where
  value : AttributeValue
  type : String
deriving DecidableEq, Repr

/-- `formatAttributeValue` (src/index.ts lines 190-205): `typeof`-switch;
a number is `"integer"` when `Number.isInteger(value)` — for a rational,
exactly when its denominator is 1 — and `"double"` otherwise. The
`default` branch of the source switch is unreachable here because
`AttributeValue` has only the three cases the TS union allows. -/
def formatAttributeValue (value : AttributeValue) : FormattedAttribute :=
  match value with
  | .str _ => { value := value, type := "string" }
  | .bool _ => { value := value, type := "boolean" }
  | .num q =>
      if q.den = 1 then { value := value, type := "integer" }
      else { value := value, type := "double" }

/-- `formatAttributes` (src/index.ts lines 207-217): `undefined` input gives
`undefined`; otherwise every entry is formatted in order. A present empty
JS object `{}` is truthy, so it maps to `some []`, not `none`. -/
def formatAttributes (attributes : Option (List (String × AttributeValue))) :
    Option (List (String × FormattedAttribute)) :=
  match attributes with
  | none => none
  | some l => some (l.map (fun kv => (kv.1, formatAttributeValue kv.2)))

/-- Lowercase hexadecimal digit for a value below 16 (as produced by
JS `Number.prototype.toString(16)`); values ≥ 16 never arise from the
byte arithmetic that feeds this. -/
def hexChar (n : Nat) : Char :=
  match n with
  | 0 => '0' | 1 => '1' | 2 => '2' | 3 => '3'
  | 4 => '4' | 5 => '5' | 6 => '6' | 7 => '7'
  | 8 => '8' | 9 => '9' | 10 => 'a' | 11 => 'b'
  | 12 => 'c' | 13 => 'd' | 14 => 'e' | _ => 'f'

/-- `b.toString(16).padStart(2, "0")` for a byte `b < 256`: exactly two
lowercase hex digits, high nibble first (src/index.ts line 186). -/
def byteHex (b : Nat) : String :=
  String.mk [hexChar (b / 16), hexChar (b % 16)]

/-- `generateTraceId` (src/index.ts lines 182-188) as a function of the 16
random bytes drawn by `crypto.getRandomValues(new Uint8Array(16))`: each
byte rendered as two zero-padded lowercase hex digits, concatenated. -/
def generateTraceId (bytes : List Nat) : String :=
  String.join (bytes.map byteHex)

/-- The lowercase hexadecimal alphabet. -/
def isLowerHexDigit (c : Char) : Bool :=
  ('0' ≤ c ∧ c ≤ '9') ∨ ('a' ≤ c ∧ c ≤ 'f')

/-- Decimal digit list of a natural number, most significant first
(fuel-driven; `fuel = n + 1` always suffices). -/
def natStrAux : Nat → Nat → List Char
  | 0, _ => []
  | fuel + 1, n =>
      if n < 10 then [hexChar n]
      else natStrAux fuel (n / 10) ++ [hexChar (n % 10)]

/-- Decimal rendering of a natural number. -/
def natStr (n : Nat) : String := String.mk (natStrAux (n + 1) n)

/-- Drop trailing `'0'` characters (JS never prints a fractional part
with trailing zeros). -/
def stripTrailingZeros (l : List Char) : List Char :=
  (l.reverse.dropWhile (fun c => c = '0')).reverse

/-- Decimal rendering of a rational, modelling `JSON.stringify` of a JS
number with a terminating decimal expansion (every JS float has one,
since its denominator is a power of two, which divides a power of ten);
a rational with no terminating expansion falls back to `num/den` form,
which never arises from JS inputs. Either way the output contains no
newline, which is the property the wire-format claims rely on. -/
def ratDecimal (q : ℚ) : String :=
  let a := q.num.natAbs
  let sign := if q.num < 0 then "-" else ""
  match (List.range 40).find? (fun k => 10 ^ k % q.den = 0) with
  | some k =>
      let m := a * (10 ^ k / q.den)
      let ip := m / 10 ^ k
      let fr := m % 10 ^ k
      let fds := stripTrailingZeros
        (List.replicate (k - (natStrAux (fr + 1) fr).length) '0' ++ natStrAux (fr + 1) fr)
      if fds.isEmpty then sign ++ natStr ip
      else sign ++ natStr ip ++ "." ++ String.mk fds
  | none => sign ++ natStr a ++ "/" ++ natStr q.den

/-- `\uXXXX` escape for a control character code below 32. -/
def hex4 (n : Nat) : String :=
  String.mk ['\\', 'u', '0', '0', hexChar (n / 16 % 16), hexChar (n % 16)]

/-- One character of `JSON.stringify` string escaping: `"` and `\` are
backslash-escaped, the named control characters get their short escapes,
other control characters get `\uXXXX`, and everything else is copied
verbatim. No branch ever emits a raw newline. -/
def escapeJsonChar (c : Char) : String :=
  if c = '"' then "\\\""
  else if c = '\\' then "\\\\"
  else if c = '\n' then "\\n"
  else if c = '\r' then "\\r"
  else if c = '\t' then "\\t"
  else if c.toNat = 8 then "\\b"
  else if c.toNat = 12 then "\\f"
  else if c.toNat < 32 then hex4 c.toNat
  else String.singleton c

/-- `JSON.stringify` of a string value. -/
def jsonStr (s : String) : String :=
  "\"" ++ String.join (s.data.map escapeJsonChar) ++ "\""

/-- The literal tag `JSON.stringify` prints for each `MetricType`. -/
def metricTypeStr : MetricType → String
  | .counter => "counter"
  | .gauge => "gauge"
  | .distribution => "distribution"

/-- `interface MetricPayload` (src/index.ts): the encoded record pushed
onto the buffer. `unit` and `attributes` are optional fields, omitted
from the serialized object when `none`. -/
structure MetricPayload where
  timestamp : ℚ
  trace_id : String
  name : String
  value : ℚ
  type : MetricType
  unit : Option String
  attributes : Option (List (String × FormattedAttribute))
deriving DecidableEq, Repr

/-- `JSON.stringify` of an `AttributeValue`. -/
def encodeAttrValue : AttributeValue → String
  | .str s => jsonStr s
  | .num q => ratDecimal q
  | .bool b => if b then "true" else "false"

/-- Comma-free separator join (`Array.prototype.join` over already
serialized pieces). -/
def joinSep (sep : String) : List String → String
  | [] => ""
  | [x] => x
  | x :: y :: xs => x ++ sep ++ joinSep sep (y :: xs)

/-- `JSON.stringify` of one formatted attribute entry:
`"key":{"value":V,"type":"T"}` with the source's insertion order
(`value` first, then `type`). -/
def encodeAttrEntry (kv : String × FormattedAttribute) : String :=
  jsonStr kv.1 ++ ":\x7b\"value\":" ++ encodeAttrValue kv.2.value ++
    ",\"type\":" ++ jsonStr kv.2.type ++ "\x7d"

/-- `JSON.stringify` of one `MetricPayload` object, fields in the
source's insertion order: `timestamp`, `trace_id`, `name`, `value`,
`type`, then `unit` and `attributes` only when present. -/
def encodeMetric (m : MetricPayload) : String :=
  "\x7b\"timestamp\":" ++ ratDecimal m.timestamp ++
    ",\"trace_id\":" ++ jsonStr m.trace_id ++
    ",\"name\":" ++ jsonStr m.name ++
    ",\"value\":" ++ ratDecimal m.value ++
    ",\"type\":" ++ jsonStr (metricTypeStr m.type) ++
    (match m.unit with
     | none => ""
     | some u => ",\"unit\":" ++ jsonStr u) ++
    (match m.attributes with
     | none => ""
     | some l => ",\"attributes\":\x7b" ++ joinSep "," (l.map encodeAttrEntry) ++ "\x7d") ++
    "\x7d"

/-- Envelope header segment: `JSON.stringify({ dsn, sent_at })`
(src/index.ts lines 293-296). -/
def envelopeHeader (dsn sentAt : String) : String :=
  "\x7b\"dsn\":" ++ jsonStr dsn ++ ",\"sent_at\":" ++ jsonStr sentAt ++ "\x7d"

/-- Item header segment: `JSON.stringify({ type: "trace_metric",
item_count, content_type })` (src/index.ts lines 298-302). -/
def itemHeader (count : Nat) : String :=
  "\x7b\"type\":\"trace_metric\",\"item_count\":" ++ natStr count ++
    ",\"content_type\":\"application/vnd.sentry.items.trace-metric+json\"\x7d"

/-- Item body segment: `JSON.stringify({ items })` (src/index.ts line 304). -/
def itemBody (metrics : List MetricPayload) : String :=
  "\x7b\"items\":[" ++ joinSep "," (metrics.map encodeMetric) ++ "]\x7d"

/-- `buildEnvelope` (src/index.ts lines 292-307): the three segments
joined by `\n` — template `` `${header}\n${itemHeader}\n${itemPayload}` ``. -/
def buildEnvelope (dsn sentAt : String) (metrics : List MetricPayload) : String :=
  envelopeHeader dsn sentAt ++ "\n" ++ itemHeader metrics.length ++ "\n" ++ itemBody metrics

/-- `const BUFFER_SIZE_LIMIT = 100` (src/index.ts). -/
def BUFFER_SIZE_LIMIT : Nat := 100

/-- `const FLUSH_INTERVAL_MS = 5000` (src/index.ts). -/
def FLUSH_INTERVAL_MS : Nat := 5000

/-- The components `new URL(dsn)` exposes that `parseDSN` reads. The
platform URL parser is external to the repository; an absent component
surfaces as the empty string (`url.username`, `url.host`,
`url.pathname.slice(1)` are all `""` when missing). -/
structure URLParts where
  username : String
  host : String
  pathname : String
deriving DecidableEq, Repr

/-- `interface ParsedDSN` (src/index.ts). -/
structure ParsedDSN where
  publicKey : String
  host : String
  projectId : String
deriving DecidableEq, Repr

/-- `parseDSN` (src/index.ts lines 169-180): extract username, host and
the pathname without its leading slash; throw
`"Invalid DSN: missing required components"` if any is falsy (empty).
A thrown JS error is modelled as `Except.error`. -/
def parseDSN (url : URLParts) : Except String ParsedDSN :=
  let publicKey := url.username
  let host := url.host
  let projectId := url.pathname.drop 1
  if publicKey = "" ∨ host = "" ∨ projectId = "" then
    Except.error "Invalid DSN: missing required components"
  else
    Except.ok { publicKey := publicKey, host := host, projectId := projectId }

/-- The construction-time constants captured by the `createMetrics`
closure: the raw DSN, the extracted key and the envelope URL. -/
structure Config where
  dsn : String
  publicKey : String
  envelopeUrl : String
deriving DecidableEq, Repr

/-- The mutable closure state: `let buffer: MetricPayload[] = []` and
`let flushTimer: ... | null = null`. The timer handle is modelled by the
absolute time (ms) at which the pending deadline fires; `none` is `null`.
Being an `Option`, the field holds at most one handle, exactly as the
single `flushTimer` variable does. -/
structure SchedulerState where
  buffer : List MetricPayload
  flushTimer : Option Nat
deriving DecidableEq, Repr

/-- Fresh state at the end of `createMetrics`: empty buffer, no timer. -/
def initialState : SchedulerState := { buffer := [], flushTimer := none }

/-- A `MetricsClient` value: what a successful `createMetrics` returns
(closure config plus its starting state). -/
structure MetricsClient where
  config : Config
  state : SchedulerState
deriving DecidableEq, Repr

/-- `createMetrics` (src/index.ts lines 219-224): parse the DSN — a
parse failure propagates to the caller before any buffer or timer state
exists (the `Except.error` result carries no `SchedulerState`) — then
build the envelope URL and the empty initial state. -/
def createMetrics (dsn : String) (url : URLParts) : Except String MetricsClient :=
  match parseDSN url with
  | Except.error e => Except.error e
  | Except.ok p =>
      Except.ok
        { config :=
            { dsn := dsn
              publicKey := p.publicKey
              envelopeUrl := "https://" ++ p.host ++ "/api/" ++ p.projectId ++ "/envelope/" }
          state := initialState }

/-- One observable transport invocation (`fetch(envelopeUrl, {...})`).
`items` records the batch snapshot the body was built from; `body` is
exactly `buildEnvelope` of that snapshot. -/
structure TransportCall where
  url : String
  contentType : String
  authHeader : String
  body : String
  items : List MetricPayload
deriving DecidableEq, Repr

/-- Per-call oracle inputs from the platform: `Date.now()` in ms, the
16 random bytes for `crypto.getRandomValues`, the `Date.toISOString()`
text, and the outcome of the `fetch` call (exception or success). -/
structure Env where
  now : Nat
  randomBytes : List Nat
  sentAt : String
  fetchOutcome : Except String Unit
deriving Repr

/-- `try { await fetch(...) } catch { /* silently fail */ }`
(src/index.ts lines 278-289): whatever the transport does, the caller
of `flush` observes success. -/
def tryFetch (outcome : Except String Unit) : Except String Unit :=
  match outcome with
  | Except.ok _ => Except.ok ()
  | Except.error _ => Except.ok ()

/-- `flush` (src/index.ts lines 265-290): clear any pending timer, do
nothing further on an empty buffer, otherwise snapshot and clear the
buffer, build the envelope and attempt one transport call whose failure
is swallowed. Returns the new state, the transport calls made (0 or 1)
and the result the caller observes. -/
def flushStep (cfg : Config) (env : Env) (s : SchedulerState) :
    SchedulerState × List TransportCall × Except String Unit :=
  let s1 : SchedulerState := { s with flushTimer := none }
  if s1.buffer.isEmpty then (s1, [], Except.ok ())
  else
    let metricsToSend := s1.buffer
    let s2 : SchedulerState := { s1 with buffer := [] }
    let call : TransportCall :=
      { url := cfg.envelopeUrl
        contentType := "application/x-sentry-envelope"
        authHeader := "Sentry sentry_key=" ++ cfg.publicKey ++ ", sentry_version=7"
        body := buildEnvelope cfg.dsn env.sentAt metricsToSend
        items := metricsToSend }
    (s2, [call], tryFetch env.fetchOutcome)

/-- `scheduleFlush` (src/index.ts lines 226-231): if a timer is already
pending, return; otherwise set one to fire `FLUSH_INTERVAL_MS` from now. -/
def scheduleFlush (now : Nat) (s : SchedulerState) : SchedulerState :=
  if s.flushTimer.isSome then s
  else { s with flushTimer := some (now + FLUSH_INTERVAL_MS) }

/-- The `MetricPayload` literal built at the top of `createMetric`
(src/index.ts lines 239-254). `if (options?.unit)` is a JS truthiness
test, so a supplied empty-string unit is skipped like an absent one;
`formatAttributes` of a present (even empty) attributes object is a
truthy object, so the field is then set. -/
def mkMetric (now : Nat) (randomBytes : List Nat) (name : String) (value : ℚ)
    (type : MetricType) (options : Option MetricOptions) : MetricPayload :=
  { timestamp := (now : ℚ) / 1000
    trace_id := generateTraceId randomBytes
    name := name
    value := value
    type := type
    unit :=
      match options with
      | none => none
      | some o =>
          match o.unit with
          | none => none
          | some u => if u = "" then none else some u
    attributes :=
      match options with
      | none => none
      | some o => formatAttributes o.attributes }

/-- `createMetric` (src/index.ts lines 233-263): build the payload, push
it, then `flush()` when the buffer has reached `BUFFER_SIZE_LIMIT`,
otherwise `scheduleFlush()`. The size-triggered flush runs synchronously
before the call returns. -/
def createMetric (cfg : Config) (env : Env) (name : String) (value : ℚ)
    (type : MetricType) (options : Option MetricOptions) (s : SchedulerState) :
    SchedulerState × List TransportCall × Except String Unit :=
  let metric := mkMetric env.now env.randomBytes name value type options
  let s1 : SchedulerState := { s with buffer := s.buffer ++ [metric] }
  if BUFFER_SIZE_LIMIT ≤ s1.buffer.length then flushStep cfg env s1
  else (scheduleFlush env.now s1, [], Except.ok ())

/-- The operations that can reach the scheduler: the three public
recording methods (already funnelled into `createMetric` with their
`MetricType`), a manual `flush()`, and the firing of the scheduled
`setTimeout` callback. -/
inductive Op where
  | record (name : String) (value : ℚ) (type : MetricType) (options : Option MetricOptions)
  | flushOp
  | timerFire
deriving Repr

/-- Is this operation one of the three public recording calls? -/
def Op.isRecord : Op → Bool
  | .record _ _ _ _ => true
  | _ => false

/-- One scheduler transition. A `timerFire` only has an effect when the
stored timer handle is live (a cleared `setTimeout` never fires) and its
deadline has been reached; it then runs `flush` exactly as the callback
`() => { flush(); }` does. -/
def step (cfg : Config) (env : Env) (op : Op) (s : SchedulerState) :
    SchedulerState × List TransportCall × Except String Unit :=
  match op with
  | .record n v t o => createMetric cfg env n v t o s
  | .flushOp => flushStep cfg env s
  | .timerFire =>
      match s.flushTimer with
      | none => (s, [], Except.ok ())
      | some d =>
          if env.now < d then (s, [], Except.ok ())
          else flushStep cfg env s

/-- Run a sequence of operations, collecting every transport call in
order. -/
def run (cfg : Config) : List (Env × Op) → SchedulerState → SchedulerState × List TransportCall
  | [], s => (s, [])
  | (env, op) :: rest, s =>
      let r := step cfg env op s
      let r2 := run cfg rest r.1
      (r2.1, r.2.1 ++ r2.2)

/-- `count` defaults its value argument to 1 when omitted (src/index.ts
line 310). -/
def countOp (name : String) (value : Option ℚ) (options : Option MetricOptions) : Op :=
  Op.record name (value.getD 1) MetricType.counter options

/-- `gauge` requires an explicit value (src/index.ts line 314). -/
def gaugeOp (name : String) (value : ℚ) (options : Option MetricOptions) : Op :=
  Op.record name value MetricType.gauge options

/-- `distribution` requires an explicit value (src/index.ts line 318). -/
def distributionOp (name : String) (value : ℚ) (options : Option MetricOptions) : Op :=
  Op.record name value MetricType.distribution options

/-- A string containing no raw newline character. The wire format claims
hinge on every serialized segment having this property. -/
abbrev NoNL (s : String) : Prop := ∀ c ∈ s.data, c ≠ '\n'

end JustMetrics

namespace JustMetrics

/-! ## Newline-freedom of every serialized segment -/

theorem noNL_append {a b : String} (ha : NoNL a) (hb : NoNL b) : NoNL (a ++ b) := by
  intro c hc
  rw [String.data_append] at hc
  rcases List.mem_append.1 hc with h | h
  · exact ha c h
  · exact hb c h

theorem hexChar_hex : ∀ n, isLowerHexDigit (hexChar n) = true
  | 0 | 1 | 2 | 3 | 4 | 5 | 6 | 7 | 8 | 9 | 10 | 11 | 12 | 13 | 14 => by decide
  | _ + 15 => by
      show isLowerHexDigit 'f' = true
      decide

theorem noNL_hexChar (n : Nat) : hexChar n ≠ '\n' := by
  intro h
  have hx := hexChar_hex n
  rw [h] at hx
  exact absurd hx (by decide)

theorem noNL_natStrAux : ∀ fuel n : Nat, ∀ c ∈ natStrAux fuel n, c ≠ '\n'
  | 0, _, _, hc => absurd hc (List.not_mem_nil _)
  | fuel + 1, n, c, hc => by
      unfold natStrAux at hc
      split at hc
      · rw [List.mem_singleton] at hc
        subst hc
        exact noNL_hexChar n
      · rcases List.mem_append.1 hc with h | h
        · exact noNL_natStrAux fuel (n / 10) c h
        · rw [List.mem_singleton] at h
          subst h
          exact noNL_hexChar (n % 10)

theorem noNL_natStr (n : Nat) : NoNL (natStr n) :=
  fun c hc => noNL_natStrAux (n + 1) n c hc

theorem mem_stripTrailingZeros {c : Char} {l : List Char}
    (hc : c ∈ stripTrailingZeros l) : c ∈ l := by
  unfold stripTrailingZeros at hc
  rw [List.mem_reverse] at hc
  have h2 := (List.dropWhile_sublist _).subset hc
  rwa [List.mem_reverse] at h2

theorem noNL_ratDecimal (q : ℚ) : NoNL (ratDecimal q) := by
  have hsign : NoNL (if q.num < 0 then "-" else "") := by
    split
    · decide
    · decide
  unfold ratDecimal
  cases hfind : (List.range 40).find? (fun k => 10 ^ k % q.den = 0) with
  | none =>
      simp only [hfind]
      exact noNL_append (noNL_append (noNL_append hsign (noNL_natStr _)) (by decide))
        (noNL_natStr _)
  | some k =>
      simp only [hfind]
      split
      · exact noNL_append hsign (noNL_natStr _)
      · refine noNL_append (noNL_append (noNL_append hsign (noNL_natStr _)) (by decide)) ?_
        intro c hc
        have hmem := mem_stripTrailingZeros hc
        rcases List.mem_append.1 hmem with h | h
        · rw [List.eq_of_mem_replicate h]
          decide
        · exact noNL_natStrAux _ _ c h

theorem noNL_hex4 (n : Nat) : NoNL (hex4 n) := by
  intro c hc
  have hd : (hex4 n).data = ['\\', 'u', '0', '0', hexChar (n / 16 % 16), hexChar (n % 16)] := rfl
  rw [hd] at hc
  simp only [List.mem_cons, List.not_mem_nil, or_false] at hc
  rcases hc with rfl | rfl | rfl | rfl | rfl | rfl
  · decide
  · decide
  · decide
  · decide
  · exact noNL_hexChar _
  · exact noNL_hexChar _

theorem noNL_escapeJsonChar (c : Char) : NoNL (escapeJsonChar c) := by
  unfold escapeJsonChar
  repeat' split
  all_goals first
    | decide
    | exact noNL_hex4 _
    | (rename_i hq hbs hnl hcr htb hb8 hf12 hlt
       intro x hx
       have hd : (String.singleton c).data = [c] := rfl
       rw [hd] at hx
       rw [List.mem_singleton] at hx
       subst hx
       exact hnl)

theorem noNL_jsonStr (s : String) : NoNL (jsonStr s) := by
  refine noNL_append (noNL_append (by decide) ?_) (by decide)
  intro c hc
  rw [String.data_join] at hc
  rw [List.mem_flatten] at hc
  rcases hc with ⟨l, hl, hcl⟩
  rw [List.mem_map] at hl
  rcases hl with ⟨t, ht, rfl⟩
  rw [List.mem_map] at ht
  rcases ht with ⟨ch, _, rfl⟩
  exact noNL_escapeJsonChar ch c hcl

theorem noNL_joinSep (sep : String) (hsep : NoNL sep) :
    ∀ l : List String, (∀ x ∈ l, NoNL x) → NoNL (joinSep sep l)
  | [], _ => fun c hc => absurd hc (List.not_mem_nil c)
  | [x], h => h x (List.mem_singleton.2 rfl)
  | x :: y :: xs, h => by
      have he : joinSep sep (x :: y :: xs) = x ++ sep ++ joinSep sep (y :: xs) := rfl
      rw [he]
      exact noNL_append (noNL_append (h x (List.mem_cons_self x _)) hsep)
        (noNL_joinSep sep hsep (y :: xs) (fun z hz => h z (List.mem_cons_of_mem _ hz)))

theorem noNL_metricTypeStr (t : MetricType) : NoNL (metricTypeStr t) := by
  cases t
  · decide
  · decide
  · decide

theorem noNL_encodeAttrValue (v : AttributeValue) : NoNL (encodeAttrValue v) := by
  cases v with
  | str s => exact noNL_jsonStr s
  | num q => exact noNL_ratDecimal q
  | bool b =>
      cases b
      · decide
      · decide

theorem noNL_encodeAttrEntry (kv : String × FormattedAttribute) :
    NoNL (encodeAttrEntry kv) := by
  unfold encodeAttrEntry
  apply noNL_append
  apply noNL_append
  apply noNL_append
  apply noNL_append
  apply noNL_append
  · exact noNL_jsonStr _
  · decide
  · exact noNL_encodeAttrValue _
  · decide
  · exact noNL_jsonStr _
  · decide

theorem noNL_encodeMetric (m : MetricPayload) : NoNL (encodeMetric m) := by
  unfold encodeMetric
  apply noNL_append
  apply noNL_append
  apply noNL_append
  apply noNL_append
  apply noNL_append
  apply noNL_append
  apply noNL_append
  apply noNL_append
  apply noNL_append
  apply noNL_append
  apply noNL_append
  apply noNL_append
  · decide
  · exact noNL_ratDecimal _
  · decide
  · exact noNL_jsonStr _
  · decide
  · exact noNL_jsonStr _
  · decide
  · exact noNL_ratDecimal _
  · decide
  · exact noNL_jsonStr (metricTypeStr m.type)
  · cases m.unit with
    | none => exact fun c hc => absurd hc (List.not_mem_nil c)
    | some u => exact noNL_append (by decide) (noNL_jsonStr u)
  · cases m.attributes with
    | none => exact fun c hc => absurd hc (List.not_mem_nil c)
    | some l =>
        refine noNL_append (noNL_append (by decide) ?_) (by decide)
        refine noNL_joinSep "," (by decide) _ ?_
        intro x hx
        rw [List.mem_map] at hx
        rcases hx with ⟨kv, _, rfl⟩
        exact noNL_encodeAttrEntry kv
  · decide

theorem noNL_envelopeHeader (dsn sentAt : String) : NoNL (envelopeHeader dsn sentAt) := by
  unfold envelopeHeader
  apply noNL_append
  apply noNL_append
  apply noNL_append
  apply noNL_append
  · decide
  · exact noNL_jsonStr dsn
  · decide
  · exact noNL_jsonStr sentAt
  · decide

theorem noNL_itemHeader (n : Nat) : NoNL (itemHeader n) := by
  unfold itemHeader
  apply noNL_append
  apply noNL_append
  · decide
  · exact noNL_natStr n
  · decide

theorem noNL_itemBody (metrics : List MetricPayload) : NoNL (itemBody metrics) := by
  unfold itemBody
  apply noNL_append
  apply noNL_append
  · decide
  · refine noNL_joinSep "," (by decide) _ ?_
    intro x hx
    rw [List.mem_map] at hx
    rcases hx with ⟨m, _, rfl⟩
    exact noNL_encodeMetric m
  · decide

theorem itemBody_data_ne_nil (metrics : List MetricPayload) :
    (itemBody metrics).data ≠ [] := by
  unfold itemBody
  rw [String.data_append]
  exact List.append_ne_nil_of_right_ne_nil _ (by decide)

/-! ## C4: wire format -/

/-- **C4.** Every transmitted payload consists of exactly three
newline-joined JSON text segments with no trailing newline, in fixed
order: the envelope header (destination identifier and send timestamp),
the item header (literal type tag, integer record count, fixed
content-type string), and one object wrapping the record sequence under
the fixed `items` key — for every batch size from 1 to 100. The three
segments contain no raw newline, the whole payload contains exactly the
two separator newlines, and its last character is not a newline. -/
theorem transmitted_payload_three_segments (dsn sentAt : String)
    (metrics : List MetricPayload)
    (h1 : 1 ≤ metrics.length) (h2 : metrics.length ≤ 100) :
    buildEnvelope dsn sentAt metrics =
        envelopeHeader dsn sentAt ++ "\n" ++ itemHeader metrics.length ++ "\n" ++
          itemBody metrics
      ∧ NoNL (envelopeHeader dsn sentAt)
      ∧ NoNL (itemHeader metrics.length)
      ∧ NoNL (itemBody metrics)
      ∧ (buildEnvelope dsn sentAt metrics).data.count '\n' = 2
      ∧ (buildEnvelope dsn sentAt metrics).data.getLast? ≠ some '\n' := by
  refine ⟨rfl, noNL_envelopeHeader dsn sentAt, noNL_itemHeader _, noNL_itemBody _, ?_, ?_⟩
  · unfold buildEnvelope
    simp only [String.data_append, List.count_append]
    have ca : (envelopeHeader dsn sentAt).data.count '\n' = 0 :=
      List.count_eq_zero.2 (fun h => noNL_envelopeHeader dsn sentAt '\n' h rfl)
    have cb : (itemHeader metrics.length).data.count '\n' = 0 :=
      List.count_eq_zero.2 (fun h => noNL_itemHeader metrics.length '\n' h rfl)
    have cc : (itemBody metrics).data.count '\n' = 0 :=
      List.count_eq_zero.2 (fun h => noNL_itemBody metrics '\n' h rfl)
    rw [ca, cb, cc]
    decide
  · unfold buildEnvelope
    intro hlast
    rw [String.data_append,
      List.getLast?_append_of_ne_nil _ (itemBody_data_ne_nil metrics)] at hlast
    exact noNL_itemBody metrics '\n' (List.mem_of_mem_getLast? hlast) rfl

/-- A concrete one-record batch used by several witnesses. -/
def metricW : MetricPayload :=
  mkMetric 1705312800000 (List.replicate 16 0) "api.requests" 1 MetricType.counter none

theorem transmitted_payload_three_segments_witness :
    1 ≤ [metricW].length ∧ [metricW].length ≤ 100 ∧
      (buildEnvelope "https://k@h/1" "2024-01-15T10:00:00.000Z" [metricW]).data.count '\n' = 2 :=
  ⟨by decide, by decide,
    (transmitted_payload_three_segments "https://k@h/1" "2024-01-15T10:00:00.000Z"
      [metricW] (by decide) (by decide)).2.2.2.2.1⟩

/-! ## C7: construction-time DSN validation -/

/-- **C7.** For every endpoint address in which the credential, the host,
or the resource path segment is absent (the platform URL parser surfaces
an absent component as the empty string), `createMetrics` fails with the
descriptive error before any buffering state exists — the error is
propagated, never an `ok` client with a buffer and timer. -/
theorem invalid_dsn_rejected_at_construction (dsn : String) (url : URLParts)
    (h : url.username = "" ∨ url.host = "" ∨ url.pathname.drop 1 = "") :
    createMetrics dsn url = Except.error "Invalid DSN: missing required components"
    ∧ ∀ client : MetricsClient, createMetrics dsn url ≠ Except.ok client := by
  have hp : parseDSN url = Except.error "Invalid DSN: missing required components" := by
    unfold parseDSN
    rw [if_pos h]
  have hc : createMetrics dsn url = Except.error "Invalid DSN: missing required components" := by
    unfold createMetrics
    rw [hp]
  exact ⟨hc, fun client heq => by rw [hc] at heq; exact Except.noConfusion heq⟩

theorem invalid_dsn_rejected_at_construction_witness :
    (URLParts.mk "" "o.ingest.sentry.io" "/123").username = ""
    ∧ createMetrics "https://o.ingest.sentry.io/123" (URLParts.mk "" "o.ingest.sentry.io" "/123")
        = Except.error "Invalid DSN: missing required components" :=
  ⟨rfl,
    (invalid_dsn_rejected_at_construction "https://o.ingest.sentry.io/123"
      (URLParts.mk "" "o.ingest.sentry.io" "/123") (Or.inl rfl)).1⟩

/-! ## C8: tag value classification -/

/-- **C8.** Every tag value supplied to a recording call is re-typed in
the encoded record by `typeof`-style classification: a number with no
fractional part (denominator 1, i.e. `Number.isInteger`) gets kind
`integer` (e.g. 42), a number with a fractional part gets kind `double`
(e.g. 187.5), a string gets `string`, a boolean gets `boolean`, and the
original value is preserved alongside the kind; the record's attribute
map applies exactly this classification entrywise. -/
theorem attribute_value_classification :
    (∀ q : ℚ, formatAttributeValue (AttributeValue.num q) =
        { value := AttributeValue.num q
          type := if q.den = 1 then "integer" else "double" })
    ∧ (∀ s, formatAttributeValue (AttributeValue.str s) =
        { value := AttributeValue.str s, type := "string" })
    ∧ (∀ b, formatAttributeValue (AttributeValue.bool b) =
        { value := AttributeValue.bool b, type := "boolean" })
    ∧ (∀ v, (formatAttributeValue v).value = v)
    ∧ formatAttributeValue (AttributeValue.num 42) =
        { value := AttributeValue.num 42, type := "integer" }
    ∧ formatAttributeValue (AttributeValue.num (187.5 : ℚ)) =
        { value := AttributeValue.num (187.5 : ℚ), type := "double" }
    ∧ (∀ now bytes name value t u al,
        (mkMetric now bytes name value t
            (some { unit := u, attributes := some al })).attributes =
          some (al.map (fun kv => (kv.1, formatAttributeValue kv.2)))) := by
  refine ⟨?_, fun s => rfl, fun b => rfl, ?_, ?_, ?_, fun now bytes name value t u al => rfl⟩
  · intro q
    simp only [formatAttributeValue]
    split_ifs with h
    · rfl
    · rfl
  · intro v
    cases v with
    | str s => rfl
    | bool b => rfl
    | num q =>
        simp only [formatAttributeValue]
        split_ifs with h
        · rfl
        · rfl
  · norm_num [formatAttributeValue]
  · norm_num [formatAttributeValue]

theorem attribute_value_classification_witness :
    formatAttributeValue (AttributeValue.num 42) =
      { value := AttributeValue.num 42, type := "integer" } :=
  attribute_value_classification.2.2.2.2.1

/-! ## C9: optional field presence (corrected) -/

/-- **C9 as stated is false.** A unit *was supplied* in the options —
the empty string — yet the encoded record omits the `unit` field,
because the source guards the assignment with the JS truthiness test
`if (options?.unit)` and `""` is falsy. -/
theorem optional_fields_presence_counterexample :
    ({ unit := some "", attributes := none } : MetricOptions).unit.isSome = true
    ∧ (mkMetric 0 [] "queue.depth" 1 MetricType.gauge
        (some { unit := some "", attributes := none })).unit = none :=
  ⟨rfl, rfl⟩

/-- **C9 (amended).** The encoded record contains the `unit` field
exactly when a non-empty unit string was supplied (a supplied empty
string is treated like an absent one, per JS truthiness), and then with
the supplied value preserved; it contains the attributes field exactly
when the attributes option was supplied — including as an empty mapping,
which yields a present empty attributes object. Absence is field
omission (`none`), not null. -/
theorem optional_fields_presence_amended (now : Nat) (bytes : List Nat) (name : String)
    (value : ℚ) (t : MetricType) (options : Option MetricOptions) :
    ((mkMetric now bytes name value t options).unit.isSome ↔
        ∃ o u, options = some o ∧ o.unit = some u ∧ u ≠ "")
    ∧ (∀ o u, options = some o → o.unit = some u → u ≠ "" →
        (mkMetric now bytes name value t options).unit = some u)
    ∧ ((mkMetric now bytes name value t options).attributes.isSome ↔
        ∃ o l, options = some o ∧ o.attributes = some l)
    ∧ (options = none →
        (mkMetric now bytes name value t options).unit = none
        ∧ (mkMetric now bytes name value t options).attributes = none) := by
  refine ⟨?_, ?_, ?_, ?_⟩
  · cases options with
    | none => simp [mkMetric]
    | some o =>
        cases hu : o.unit with
        | none => simp [mkMetric, hu]
        | some u =>
            by_cases he : u = ""
            · subst he
              simp [mkMetric, hu]
            · simp [mkMetric, hu, he]
  · intro o u ho hu he
    subst ho
    simp [mkMetric, hu, he]
  · cases options with
    | none => simp [mkMetric]
    | some o =>
        cases ha : o.attributes with
        | none => simp [mkMetric, formatAttributes, ha]
        | some l => simp [mkMetric, formatAttributes, ha]
  · intro ho
    subst ho
    exact ⟨rfl, rfl⟩

theorem optional_fields_presence_amended_witness :
    (mkMetric 0 [] "response.time" 1 MetricType.distribution
        (some { unit := some "millisecond", attributes := none })).unit = some "millisecond" :=
  (optional_fields_presence_amended 0 [] "response.time" 1 MetricType.distribution
      (some { unit := some "millisecond", attributes := none })).2.1
    { unit := some "millisecond", attributes := none } "millisecond" rfl rfl (by decide)

/-! ## Scheduler step lemmas -/

theorem tryFetch_ok (o : Except String Unit) : tryFetch o = Except.ok () := by
  cases o
  · rfl
  · rfl

theorem flushStep_flushTimer (cfg : Config) (env : Env) (s : SchedulerState) :
    (flushStep cfg env s).1.flushTimer = none := by
  unfold flushStep
  dsimp only
  split
  · rfl
  · rfl

theorem flushStep_buffer (cfg : Config) (env : Env) (s : SchedulerState) :
    (flushStep cfg env s).1.buffer = [] := by
  unfold flushStep
  dsimp only
  split
  · rename_i h
    exact List.isEmpty_iff.1 h
  · rfl

theorem flushStep_result (cfg : Config) (env : Env) (s : SchedulerState) :
    (flushStep cfg env s).2.2 = Except.ok () := by
  unfold flushStep
  dsimp only
  split
  · rfl
  · exact tryFetch_ok env.fetchOutcome

theorem flushStep_calls_of_empty (cfg : Config) (env : Env) (s : SchedulerState)
    (h : s.buffer = []) : (flushStep cfg env s).2.1 = [] := by
  unfold flushStep
  dsimp only
  rw [if_pos (List.isEmpty_iff.2 h)]

theorem flushStep_calls_of_ne_nil (cfg : Config) (env : Env) (s : SchedulerState)
    (h : s.buffer ≠ []) :
    (flushStep cfg env s).2.1 =
      [{ url := cfg.envelopeUrl
         contentType := "application/x-sentry-envelope"
         authHeader := "Sentry sentry_key=" ++ cfg.publicKey ++ ", sentry_version=7"
         body := buildEnvelope cfg.dsn env.sentAt s.buffer
         items := s.buffer }] := by
  unfold flushStep
  dsimp only
  rw [if_neg (fun he => h (List.isEmpty_iff.1 he))]

theorem scheduleFlush_buffer (now : Nat) (s : SchedulerState) :
    (scheduleFlush now s).buffer = s.buffer := by
  unfold scheduleFlush
  split
  · rfl
  · rfl

theorem step_record_below (cfg : Config) (env : Env) (n : String) (v : ℚ) (t : MetricType)
    (o : Option MetricOptions) (s : SchedulerState)
    (h : s.buffer.length + 1 < BUFFER_SIZE_LIMIT) :
    step cfg env (Op.record n v t o) s =
      (scheduleFlush env.now
          { s with buffer := s.buffer ++ [mkMetric env.now env.randomBytes n v t o] },
        [], Except.ok ()) := by
  show createMetric cfg env n v t o s = _
  simp only [createMetric]
  rw [if_neg]
  simp only [List.length_append, List.length_singleton]
  omega

theorem step_record_full (cfg : Config) (env : Env) (n : String) (v : ℚ) (t : MetricType)
    (o : Option MetricOptions) (s : SchedulerState)
    (h : BUFFER_SIZE_LIMIT ≤ s.buffer.length + 1) :
    step cfg env (Op.record n v t o) s =
      flushStep cfg env
        { s with buffer := s.buffer ++ [mkMetric env.now env.randomBytes n v t o] } := by
  show createMetric cfg env n v t o s = _
  simp only [createMetric]
  rw [if_pos]
  simp only [List.length_append, List.length_singleton]
  omega

theorem run_cons (cfg : Config) (env : Env) (op : Op) (rest : List (Env × Op))
    (s : SchedulerState) :
    run cfg ((env, op) :: rest) s =
      ((run cfg rest (step cfg env op s).1).1,
        (step cfg env op s).2.1 ++ (run cfg rest (step cfg env op s).1).2) := rfl

theorem run_append (cfg : Config) :
    ∀ (l1 l2 : List (Env × Op)) (s : SchedulerState),
      run cfg (l1 ++ l2) s =
        ((run cfg l2 (run cfg l1 s).1).1,
          (run cfg l1 s).2 ++ (run cfg l2 (run cfg l1 s).1).2)
  | [], l2, s => by simp [run]
  | (env, op) :: rest, l2, s => by
      rw [List.cons_append, run_cons, run_cons,
        run_append cfg rest l2 (step cfg env op s).1]
      simp [List.append_assoc]

/-- Any sequence of recording operations that keeps the buffer strictly
below the size threshold emits no transport call and grows the buffer by
one record per operation. -/
theorem run_records_below (cfg : Config) :
    ∀ (l : List (Env × Op)) (s : SchedulerState),
      (∀ p ∈ l, (p.2).isRecord = true) →
      s.buffer.length + l.length ≤ 99 →
      (run cfg l s).2 = [] ∧
        (run cfg l s).1.buffer.length = s.buffer.length + l.length
  | [], s, _, _ => ⟨rfl, by simp [run]⟩
  | (env, op) :: rest, s, hrec, hlen => by
      cases op with
      | flushOp =>
          have hfalse := hrec _ (List.mem_cons_self _ _)
          simp [Op.isRecord] at hfalse
      | timerFire =>
          have hfalse := hrec _ (List.mem_cons_self _ _)
          simp [Op.isRecord] at hfalse
      | record n v t o =>
          have hlen1 : s.buffer.length + 1 < BUFFER_SIZE_LIMIT := by
            simp only [List.length_cons] at hlen
            unfold BUFFER_SIZE_LIMIT
            omega
          rw [run_cons, step_record_below cfg env n v t o s hlen1]
          have hb : (scheduleFlush env.now
              { s with buffer := s.buffer ++ [mkMetric env.now env.randomBytes n v t o] }).buffer.length
              = s.buffer.length + 1 := by
            rw [scheduleFlush_buffer]
            simp
          have ih := run_records_below cfg rest _
            (fun p hp => hrec p (List.mem_cons_of_mem _ hp))
            (by
              rw [hb]
              simp only [List.length_cons] at hlen
              omega)
          refine ⟨by rw [List.nil_append]; exact ih.1, ?_⟩
          rw [ih.2, hb]
          simp [List.length_cons]
          omega

theorem createMetrics_error_iff (dsn : String) (url : URLParts) :
    (∃ e, createMetrics dsn url = Except.error e) ↔
      (url.username = "" ∨ url.host = "" ∨ url.pathname.drop 1 = "") := by
  unfold createMetrics parseDSN
  dsimp only
  by_cases h : url.username = "" ∨ url.host = "" ∨ url.pathname.drop 1 = ""
  · rw [if_pos h]
    simp [h]
  · rw [if_neg h]
    simp [h]

/-- A concrete configuration used by witnesses. -/
def cfgW : Config :=
  { dsn := "https://k@o.ingest.sentry.io/123"
    publicKey := "k"
    envelopeUrl := "https://o.ingest.sentry.io/api/123/envelope/" }

/-- A concrete oracle environment used by witnesses. -/
def envW : Env :=
  { now := 0
    randomBytes := List.replicate 16 0
    sentAt := "2024-01-15T10:00:00.000Z"
    fetchOutcome := Except.ok () }

/-! ## C2: flush idempotence and single-batch delivery -/

/-- **C2.** `flush()` is idempotent: after any flush the buffer is empty
and no deadline is pending; a flush of an empty scheduler performs zero
transport calls (so the second of two back-to-back flushes always sends
nothing); and the sequence flush – one recording – flush from a fresh
scheduler produces exactly one transport call total, whose batch is
exactly that one record. -/
theorem flush_idempotent_and_single_batch :
    (∀ cfg env s,
        (flushStep cfg env s).1.buffer = [] ∧ (flushStep cfg env s).1.flushTimer = none)
    ∧ (∀ cfg env s, s.buffer = [] → (flushStep cfg env s).2.1 = [])
    ∧ (∀ cfg env1 env2 s, (flushStep cfg env2 (flushStep cfg env1 s).1).2.1 = [])
    ∧ (∀ cfg (e1 e2 e3 : Env) n v t o,
        (run cfg [(e1, Op.flushOp), (e2, Op.record n v t o), (e3, Op.flushOp)]
            initialState).2.map (fun c => c.items) =
          [[mkMetric e2.now e2.randomBytes n v t o]]) := by
  refine ⟨fun cfg env s => ⟨flushStep_buffer cfg env s, flushStep_flushTimer cfg env s⟩,
    fun cfg env s h => flushStep_calls_of_empty cfg env s h, ?_, ?_⟩
  · intro cfg env1 env2 s
    exact flushStep_calls_of_empty cfg env2 _ (flushStep_buffer cfg env1 s)
  · intro cfg e1 e2 e3 n v t o
    rfl

theorem flush_idempotent_and_single_batch_witness :
    initialState.buffer = [] ∧ (flushStep cfgW envW initialState).2.1 = [] :=
  ⟨rfl, flush_idempotent_and_single_batch.2.1 cfgW envW initialState rfl⟩

/-! ## C3: delivery failures never reach the caller -/

/-- **C3.** No recording operation or flush ever throws or rejects
toward the caller because of a delivery problem: the `catch {}` turns
any transport outcome into success, every step's caller-visible result
is `ok` whatever the transport outcome, the dropped batch is neither
retried nor requeued (the scheduler's next state and its emitted calls
are independent of the outcome, and the buffer is left empty either
way); only malformed construction input produces an error. -/
theorem delivery_failures_never_reach_caller :
    (∀ o, tryFetch o = Except.ok ())
    ∧ (∀ cfg env op s, (step cfg env op s).2.2 = Except.ok ())
    ∧ (∀ cfg env o s,
        (flushStep cfg { env with fetchOutcome := o } s).1 = (flushStep cfg env s).1
        ∧ (flushStep cfg { env with fetchOutcome := o } s).2.1 = (flushStep cfg env s).2.1)
    ∧ (∀ cfg env s, (flushStep cfg env s).1.buffer = [])
    ∧ (∀ dsn url, (∃ e, createMetrics dsn url = Except.error e) ↔
        (url.username = "" ∨ url.host = "" ∨ url.pathname.drop 1 = "")) := by
  refine ⟨tryFetch_ok, ?_, ?_, flushStep_buffer, createMetrics_error_iff⟩
  · intro cfg env op s
    cases op with
    | record n v t o =>
        show (createMetric cfg env n v t o s).2.2 = Except.ok ()
        simp only [createMetric]
        split
        · exact flushStep_result cfg env _
        · rfl
    | flushOp => exact flushStep_result cfg env s
    | timerFire =>
        unfold step
        cases s.flushTimer with
        | none => rfl
        | some d =>
            dsimp only
            split
            · rfl
            · exact flushStep_result cfg env s
  · intro cfg env o s
    constructor
    · unfold flushStep
      dsimp only
      split
      · rfl
      · rfl
    · unfold flushStep
      dsimp only
      split
      · rfl
      · rfl

theorem delivery_failures_never_reach_caller_witness :
    tryFetch (Except.error "network unreachable") = Except.ok () :=
  delivery_failures_never_reach_caller.1 (Except.error "network unreachable")

/-! ## C5: no transport before deadline or manual flush -/

/-- **C5.** While the buffer stays below the size threshold no recording
sequence triggers any transport call; the scheduled deadline is set
exactly `FLUSH_INTERVAL_MS` (5000 ms) after the recording that scheduled
it; and the timer's firing before its deadline is a no-op — so a
transport can only happen once 5000 ms have elapsed since scheduling, or
through a manual flush. -/
theorem no_transport_before_deadline_or_manual_flush :
    (∀ cfg (l : List (Env × Op)),
        (∀ p ∈ l, (p.2).isRecord = true) → l.length ≤ 99 →
        (run cfg l initialState).2 = [])
    ∧ (∀ cfg env s d, s.flushTimer = some d → env.now < d →
        step cfg env Op.timerFire s = (s, [], Except.ok ()))
    ∧ (∀ now s, s.flushTimer = none →
        (scheduleFlush now s).flushTimer = some (now + FLUSH_INTERVAL_MS)) := by
  refine ⟨?_, ?_, ?_⟩
  · intro cfg l hrec hlen
    exact (run_records_below cfg l initialState hrec (by simpa [initialState] using hlen)).1
  · intro cfg env s d hd hlt
    unfold step
    rw [hd]
    dsimp only
    rw [if_pos hlt]
  · intro now s h
    unfold scheduleFlush
    rw [h]
    rfl

theorem no_transport_before_deadline_or_manual_flush_witness :
    (run cfgW [(envW, Op.record "api.requests" 1 MetricType.counter none)] initialState).2 = []
    ∧ step cfgW envW Op.timerFire { buffer := [metricW], flushTimer := some 5000 } =
        ({ buffer := [metricW], flushTimer := some 5000 }, [], Except.ok ())
    ∧ (scheduleFlush 0 initialState).flushTimer = some (0 + FLUSH_INTERVAL_MS) :=
  ⟨no_transport_before_deadline_or_manual_flush.1 cfgW _
      (by intro p hp; rw [List.mem_singleton] at hp; subst hp; rfl) (by decide),
    no_transport_before_deadline_or_manual_flush.2.1 cfgW envW _ 5000 rfl (by decide),
    no_transport_before_deadline_or_manual_flush.2.2 0 initialState rfl⟩

/-! ## C6: at most one pending deadline -/

/-- **C6.** The deadline handle is a single `Option` cell, so at most
one timer exists between public operations; scheduling while a deadline
is pending is the identity (no second timer); a recording either keeps
the pending deadline unchanged, creates the first one, or — when the
size threshold is reached — drains and clears it; and every drain
(manual, size-triggered, or time-triggered) leaves the deadline
cleared. -/
theorem single_pending_deadline :
    (∀ now s d, s.flushTimer = some d → scheduleFlush now s = s)
    ∧ (∀ cfg env n v t (o : Option MetricOptions) s,
        (step cfg env (Op.record n v t o) s).1.flushTimer =
          if BUFFER_SIZE_LIMIT ≤ s.buffer.length + 1 then none
          else
            match s.flushTimer with
            | some d => some d
            | none => some (env.now + FLUSH_INTERVAL_MS))
    ∧ (∀ cfg env s, (flushStep cfg env s).1.flushTimer = none)
    ∧ (∀ cfg env s d, s.flushTimer = some d → d ≤ env.now →
        (step cfg env Op.timerFire s).1.flushTimer = none) := by
  refine ⟨?_, ?_, flushStep_flushTimer, ?_⟩
  · intro now s d hd
    unfold scheduleFlush
    rw [hd]
    rfl
  · intro cfg env n v t o s
    by_cases h : BUFFER_SIZE_LIMIT ≤ s.buffer.length + 1
    · rw [step_record_full cfg env n v t o s h, if_pos h]
      exact flushStep_flushTimer cfg env _
    · rw [step_record_below cfg env n v t o s (by omega), if_neg h]
      cases hft : s.flushTimer with
      | some d => simp [scheduleFlush, hft]
      | none => simp [scheduleFlush, hft]
  · intro cfg env s d hd hle
    unfold step
    rw [hd]
    dsimp only
    rw [if_neg (not_lt.2 hle)]
    exact flushStep_flushTimer cfg env s

theorem single_pending_deadline_witness :
    scheduleFlush 7 { buffer := [], flushTimer := some 5000 } =
        { buffer := [], flushTimer := some 5000 }
    ∧ (step cfgW { envW with now := 5000 } Op.timerFire
        { buffer := [metricW], flushTimer := some 5000 }).1.flushTimer = none :=
  ⟨single_pending_deadline.1 7 { buffer := [], flushTimer := some 5000 } 5000 rfl,
    single_pending_deadline.2.2.2 cfgW { envW with now := 5000 }
      { buffer := [metricW], flushTimer := some 5000 } 5000 rfl (by decide)⟩

/-! ## C1: 100 recordings trigger exactly one synchronous flush -/

/-- **C1.** For every sequence of exactly 100 recording calls on a fresh
scheduler with no manual flush: the first 99 emit no transport call,
the whole run emits exactly one, that call carries exactly 100 records,
and the buffer is drained (empty) when the 100th call returns — the
transport call happens synchronously inside the 100th step. -/
theorem hundred_records_single_synchronous_flush (cfg : Config) (l : List (Env × Op))
    (hlen : l.length = 100) (hrec : ∀ p ∈ l, (p.2).isRecord = true) :
    (run cfg (l.take 99) initialState).2 = []
    ∧ (run cfg l initialState).2.length = 1
    ∧ (∀ c ∈ (run cfg l initialState).2, c.items.length = 100)
    ∧ (run cfg l initialState).1.buffer = [] := by
  have htake : (l.take 99).length = 99 := by
    rw [List.length_take, hlen]
    decide
  have hrt : ∀ p ∈ l.take 99, (p.2).isRecord = true :=
    fun p hp => hrec p (List.take_subset 99 l hp)
  obtain ⟨hc0, hlen99⟩ :=
    run_records_below cfg (l.take 99) initialState hrt
      (by rw [htake]; simp [initialState])
  have hdlen : (l.drop 99).length = 1 := by
    rw [List.length_drop, hlen]
  obtain ⟨⟨env, op⟩, hone⟩ := List.length_eq_one.1 hdlen
  have hopmem : (env, op) ∈ l := by
    refine List.drop_subset 99 l ?_
    rw [hone]
    exact List.mem_singleton.2 rfl
  have hop := hrec _ hopmem
  cases op with
  | flushOp => simp [Op.isRecord] at hop
  | timerFire => simp [Op.isRecord] at hop
  | record n v t o =>
      have hs99len : (run cfg (l.take 99) initialState).1.buffer.length = 99 := by
        rw [hlen99, htake]
        simp [initialState]
      have hfull : BUFFER_SIZE_LIMIT ≤ (run cfg (l.take 99) initialState).1.buffer.length + 1 := by
        rw [hs99len]
        unfold BUFFER_SIZE_LIMIT
        omega
      have hstep := step_record_full cfg env n v t o _ hfull
      have hbufne :
          ((run cfg (l.take 99) initialState).1.buffer ++
            [mkMetric env.now env.randomBytes n v t o]) ≠ [] :=
        List.append_ne_nil_of_right_ne_nil _ (by simp)
      have hcalls := flushStep_calls_of_ne_nil cfg env
        { (run cfg (l.take 99) initialState).1 with
          buffer := (run cfg (l.take 99) initialState).1.buffer ++
            [mkMetric env.now env.randomBytes n v t o] } hbufne
      have hrunl : run cfg l initialState =
          ((run cfg (l.drop 99) (run cfg (l.take 99) initialState).1).1,
            (run cfg (l.take 99) initialState).2 ++
              (run cfg (l.drop 99) (run cfg (l.take 99) initialState).1).2) := by
        conv_lhs => rw [← List.take_append_drop 99 l]
        exact run_append cfg (l.take 99) (l.drop 99) initialState
      have hsing : run cfg (l.drop 99) (run cfg (l.take 99) initialState).1 =
          ((step cfg env (Op.record n v t o) (run cfg (l.take 99) initialState).1).1,
            (step cfg env (Op.record n v t o) (run cfg (l.take 99) initialState).1).2.1 ++ []) := by
        rw [hone]
        exact run_cons cfg env (Op.record n v t o) [] _
      rw [hstep] at hsing
      refine ⟨hc0, ?_, ?_, ?_⟩
      · rw [hrunl, hsing, hc0]
        simp [hcalls]
      · intro c hc
        rw [hrunl, hsing, hc0] at hc
        simp only [List.nil_append, List.append_nil] at hc
        rw [hcalls, List.mem_singleton] at hc
        subst hc
        simp only [List.length_append, List.length_singleton]
        rw [hs99len]
      · rw [hrunl, hsing]
        exact flushStep_buffer cfg env _

/-- One hundred identical recording operations, for the C1 witness. -/
def hundredRecords : List (Env × Op) :=
  List.replicate 100 (envW, Op.record "api.requests" 1 MetricType.counter none)

theorem hundred_records_single_synchronous_flush_witness :
    hundredRecords.length = 100
    ∧ (run cfgW hundredRecords initialState).2.length = 1
    ∧ (run cfgW hundredRecords initialState).1.buffer = [] :=
  ⟨by simp [hundredRecords],
    (hundred_records_single_synchronous_flush cfgW hundredRecords
      (by simp [hundredRecords])
      (by
        intro p hp
        rw [hundredRecords, List.mem_replicate] at hp
        rw [hp.2]
        rfl)).2.1,
    (hundred_records_single_synchronous_flush cfgW hundredRecords
      (by simp [hundredRecords])
      (by
        intro p hp
        rw [hundredRecords, List.mem_replicate] at hp
        rw [hp.2]
        rfl)).2.2.2⟩

/-! ## C10: correlation identifier format and freshness -/

theorem hexChar_inj {a b : Nat} (ha : a < 16) (hb : b < 16)
    (h : hexChar a = hexChar b) : a = b := by
  have key : ∀ x y : Fin 16, hexChar x.val = hexChar y.val → x = y := by decide
  exact congrArg Fin.val (key ⟨a, ha⟩ ⟨b, hb⟩ h)

theorem join_cons (s : String) (l : List String) :
    String.join (s :: l) = s ++ String.join l := by
  apply String.ext
  rw [String.data_join, String.data_append, String.data_join]
  simp

theorem generateTraceId_length : ∀ bytes : List Nat,
    (generateTraceId bytes).length = 2 * bytes.length
  | [] => rfl
  | x :: xs => by
      unfold generateTraceId
      rw [List.map_cons, join_cons, String.length_append]
      have hx : (byteHex x).length = 2 := rfl
      have ih : (String.join (xs.map byteHex)).length = 2 * xs.length :=
        generateTraceId_length xs
      rw [hx, ih, List.length_cons]
      ring

theorem generateTraceId_hex (bytes : List Nat) :
    ∀ c ∈ (generateTraceId bytes).data, isLowerHexDigit c = true := by
  intro c hc
  unfold generateTraceId at hc
  rw [String.data_join, List.mem_flatten] at hc
  obtain ⟨l, hl, hcl⟩ := hc
  rw [List.mem_map] at hl
  obtain ⟨t, ht, rfl⟩ := hl
  rw [List.mem_map] at ht
  obtain ⟨b, _, rfl⟩ := ht
  have hd : (byteHex b).data = [hexChar (b / 16), hexChar (b % 16)] := rfl
  rw [hd, List.mem_cons, List.mem_singleton] at hcl
  rcases hcl with rfl | rfl
  · exact hexChar_hex _
  · exact hexChar_hex _

theorem generateTraceId_inj : ∀ (b1 b2 : List Nat),
    (∀ b ∈ b1, b < 256) → (∀ b ∈ b2, b < 256) → b1.length = b2.length →
    generateTraceId b1 = generateTraceId b2 → b1 = b2
  | [], [], _, _, _, _ => rfl
  | [], _ :: _, _, _, hl, _ => absurd hl (by simp)
  | _ :: _, [], _, _, hl, _ => absurd hl (by simp)
  | x :: xs, y :: ys, h1, h2, hl, heq => by
      have heq2 : byteHex x ++ generateTraceId xs = byteHex y ++ generateTraceId ys := by
        unfold generateTraceId at heq ⊢
        rw [List.map_cons, join_cons, List.map_cons, join_cons] at heq
        exact heq
      have hd := congrArg String.data heq2
      rw [String.data_append, String.data_append] at hd
      have hd2 : hexChar (x / 16) :: hexChar (x % 16) :: (generateTraceId xs).data =
          hexChar (y / 16) :: hexChar (y % 16) :: (generateTraceId ys).data := hd
      injection hd2 with e1 hd3
      injection hd3 with e2 hd4
      have hx := h1 x (List.mem_cons_self _ _)
      have hy := h2 y (List.mem_cons_self _ _)
      have ex : x = y := by
        have d1 : x / 16 = y / 16 := hexChar_inj (by omega) (by omega) e1
        have d2 : x % 16 = y % 16 := hexChar_inj (by omega) (by omega) e2
        omega
      subst ex
      have tail : xs = ys :=
        generateTraceId_inj xs ys
          (fun b hb => h1 b (List.mem_cons_of_mem _ hb))
          (fun b hb => h2 b (List.mem_cons_of_mem _ hb))
          (by simpa using hl)
          (String.ext hd4)
      rw [tail]

/-- **C10.** Every encoded record's correlation identifier is the
rendering of the 16 freshly drawn random bytes of that recording call:
for a 16-byte draw the identifier is exactly 32 characters, every
character is a lowercase hexadecimal digit (zero-padded per byte), each
record stores the rendering of its own call's draw, and the rendering is
injective on byte draws — distinct 128-bit random values always yield
distinct identifiers, which is what makes two records from two separate
recording calls differ with overwhelming probability given a sound
random source. -/
theorem trace_id_format_and_freshness :
    (∀ bytes : List Nat, bytes.length = 16 → (generateTraceId bytes).length = 32)
    ∧ (∀ bytes : List Nat, ∀ c ∈ (generateTraceId bytes).data, isLowerHexDigit c = true)
    ∧ (∀ b1 b2 : List Nat, (∀ b ∈ b1, b < 256) → (∀ b ∈ b2, b < 256) →
        b1.length = b2.length → generateTraceId b1 = generateTraceId b2 → b1 = b2)
    ∧ (∀ now bytes name value t o,
        (mkMetric now bytes name value t o).trace_id = generateTraceId bytes) := by
  refine ⟨?_, generateTraceId_hex, generateTraceId_inj, fun now bytes name value t o => rfl⟩
  intro bytes hlen
  rw [generateTraceId_length, hlen]

theorem trace_id_format_and_freshness_witness :
    (List.replicate 16 (0 : Nat)).length = 16
    ∧ (generateTraceId (List.replicate 16 0)).length = 32
    ∧ (mkMetric 1705312800000 (List.replicate 16 0) "api.requests" 1 MetricType.counter
        none).trace_id = generateTraceId (List.replicate 16 0) :=
  ⟨by decide,
    trace_id_format_and_freshness.1 (List.replicate 16 0) (by decide),
    trace_id_format_and_freshness.2.2.2 1705312800000 (List.replicate 16 0)
      "api.requests" 1 MetricType.counter none⟩

end JustMetrics
